import Mathlib

/-!
Verification of the region-set reconciliation core
(`crates/kitsune_p2p/dht/src/region/region_set.rs`).

The file is a shallow embedding: each Rust item of `region_set.rs` becomes a
Lean definition of the same name.  Types that `region_set.rs` uses but whose
sources are not part of this snapshot (`TelescopingTimes`, `ArqBounds`,
`ArqBoundsSet`, `GossipError`, the segment types) are modelled from the
specification; each of those carries a doc comment starting with
`Modelled from the spec:`.  The generic digest type parameter `D`
(`TreeDataConstraints` in the source) is a type with decidable equality and a
caller-supplied `combine` operation, passed explicitly as `comb`.  The
`OnceCell` coordinate cache of `RegionSetXtcs` is omitted: it is excluded from
equality and serialization, so it carries no observable state.
-/

/-- Modelled from the spec: a temporal quantum window.  A window is
`[offset * 2^power, (offset+1) * 2^power)`; widths are powers of two so that
adjacent equal-width windows merge losslessly into the next wider one. -/
structure TimeSegment where
  power : Nat
  offset : Nat
deriving DecidableEq, Repr

/-- The width of a time window, in temporal quanta. -/
def TimeSegment.len (s : TimeSegment) : Nat := 2 ^ s.power

/-- Modelled from the spec: a spatial quantum segment of an arq,
`[offset * 2^power, (offset+1) * 2^power)` on the ring. -/
structure SpaceSegment where
  power : Nat
  offset : Nat
deriving DecidableEq, Repr

/-- Fuel-driven floor of the base-2 logarithm (the fuel makes the recursion
structural so that concrete evaluation reduces in the kernel). -/
def floorLog2Aux : Nat → Nat → Nat
  | 0, _ => 0
  | fuel + 1, n => if n ≤ 1 then 0 else floorLog2Aux fuel (n / 2) + 1

/-- Floor of the base-2 logarithm of a natural number (0 for 0). -/
def floorLog2 (n : Nat) : Nat := floorLog2Aux n n

/-- Modelled from the spec: the telescoping window list covering `[start,
start+t)`, oldest window first, widths given by the binary expansion of `t`
(so the widths strictly decrease moving toward the recent end, and the window
count is logarithmic in `t`).  `fuel` bounds the recursion depth; it is always
called with `fuel = t`, which suffices since every step removes at least one
quantum. -/
def teleSegsAux : Nat → Nat → Nat → List TimeSegment
  | _, 0, _ => []
  | _, _ + 1, 0 => []
  | start, fuel + 1, t + 1 =>
      let p := floorLog2 (t + 1)
      ⟨p, start / 2 ^ p⟩ :: teleSegsAux (start + 2 ^ p) fuel (t + 1 - 2 ^ p)

/-- Modelled from the spec: `TelescopingTimes` is generated from the "now"
quantum `time` (the upper bound of the covered interval `[0, time)`) together
with an optional cap `lim` on the number of windows, set by `limit`. -/
structure TelescopingTimes where
  time : Nat
  lim : Option Nat
deriving DecidableEq, Repr

/-- Modelled from the spec: the ordered window list of a `TelescopingTimes`,
oldest first; `lim` keeps only the first so-many windows. -/
def TelescopingTimes.segments (t : TelescopingTimes) : List TimeSegment :=
  let full := teleSegsAux 0 t.time t.time
  match t.lim with
  | none => full
  | some n => full.take n

/-- Modelled from the spec: `empty()` yields zero windows. -/
def TelescopingTimes.empty : TelescopingTimes := ⟨0, none⟩

/-- Modelled from the spec: `limit(n)` truncates to the first `n` windows
(composing with any cap already present). -/
def TelescopingTimes.limit (t : TelescopingTimes) (n : Nat) : TelescopingTimes :=
  { time := t.time
    lim := some (match t.lim with | none => n | some m => min m n) }

/-- Strict order on the optional window cap: a capped instance is below an
uncapped one, and smaller caps are below larger ones. -/
def optLtB : Option Nat → Option Nat → Bool
  | some m, some n => decide (m < n)
  | some _, none => true
  | none, _ => false

/-- Modelled from the spec: the rectification-tiebreak order on two
`TelescopingTimes` — first by how far the window sequence reaches (the now
bound), then by the window-count cap. -/
def TelescopingTimes.ltB (x y : TelescopingTimes) : Bool :=
  decide (x.time < y.time) || (decide (x.time = y.time) && optLtB x.lim y.lim)

/-- Consume window widths from `src` until they sum exactly to `L`; return how
many were consumed and the remaining widths, or `none` when `L` cannot be
assembled exactly from a run of leading widths. -/
def takeExact : Nat → List Nat → Option (Nat × List Nat)
  | L, [] => if L = 0 then some (0, []) else none
  | L, k :: ks =>
      if k = L then some (1, ks)
      else if k < L then (takeExact (L - k) ks).map (fun q => (q.1 + 1, q.2))
      else none

/-- Modelled from the spec: the lossless adjacent-merge pattern taking the
`src` window widths onto the `dst` window widths — for each target window in
turn, how many consecutive source windows merge into it; generation stops at
the first target window that cannot be assembled exactly. -/
def mergePattern : List Nat → List Nat → List Nat
  | [], _ => []
  | L :: Ls, src =>
      match takeExact L src with
      | none => []
      | some q => q.1 :: mergePattern Ls q.2

/-- Fold a nonempty bucket run into one digest with `comb` (`default` is never
reached on the runs produced by `chunkCombine`). -/
def comb1 [Inhabited D] (comb : D → D → D) : List D → D
  | [] => default
  | d :: ds => ds.foldl comb d

/-- Apply a merge pattern to one row of digests: each pattern entry `k` folds
the next `k` adjacent buckets into one; the row is cut off at the first entry
its remaining buckets cannot fill. -/
def chunkCombine [Inhabited D] (comb : D → D → D) : List Nat → List D → List D
  | [], _ => []
  | k :: ks, row =>
      if k = 0 ∨ row.length < k then []
      else comb1 comb (row.take k) :: chunkCombine comb ks (row.drop k)

/-- Modelled from the spec: `TelescopingTimes::rectify` reshapes two data rows,
associated with the two window lists, onto the common schema: each row is
losslessly re-bucketed (adjacent digests combined with `comb`) onto the second
operand's window partition, and both rows are cut to the common length that
both could reach. -/
def TelescopingTimes.rectify [Inhabited D] (comb : D → D → D)
    (a : TelescopingTimes × List D) (b : TelescopingTimes × List D) :
    List D × List D :=
  let sa := a.1.segments.map TimeSegment.len
  let sb := b.1.segments.map TimeSegment.len
  let d1 := chunkCombine comb (mergePattern sb sa) a.2
  let d2 := chunkCombine comb (mergePattern sb sb) b.2
  let n := min d1.length d2.length
  (d1.take n, d2.take n)

/-- Modelled from the spec: an arq described by start (in units of its own
segment width), power-of-two segment width exponent, and segment count. -/
structure ArqBounds where
  pow : Nat
  offset : Nat
  count : Nat
deriving DecidableEq, Repr

/-- Modelled from the spec: `segments()` yields `count` contiguous equal-length
wraparound spatial intervals starting at the arq's start. -/
def ArqBounds.segments (a : ArqBounds) : List SpaceSegment :=
  (List.range a.count).map (fun i => ⟨a.pow, (a.offset + i) % 2 ^ (32 - a.pow)⟩)

/-- Modelled from the spec: an ordered collection of arqs; order is
significant, and reconciliation compares two collections by strict structural
equality. -/
structure ArqBoundsSet where
  arqs : List ArqBounds
deriving DecidableEq, Repr

/-- Modelled from the spec: the empty arq collection. -/
def ArqBoundsSet.empty : ArqBoundsSet := ⟨[]⟩

/-- A rectangle of quantized spacetime: one spatial segment crossed with one
temporal window (`RegionCoords` in the source). -/
structure RegionCoords where
  space : SpaceSegment
  time : TimeSegment
deriving DecidableEq, Repr

/-- `RegionCoords` plus a digest value (`Region<D>` in the source). -/
structure Region (D : Type) where
  coords : RegionCoords
  data : D
deriving DecidableEq, Repr

/-- Modelled from the spec: the reconciliation error taxonomy; the only error
rectification can raise is the arq-set mismatch. -/
inductive GossipError where
  | arqSetMismatchForDiff
deriving DecidableEq, Repr

/-- The generating pair of a region grid: a `TelescopingTimes` and an
`ArqBoundsSet` (`RegionCoordSetXtcs` in the source). -/
structure RegionCoordSetXtcs where
  times : TelescopingTimes
  arq_set : ArqBoundsSet
deriving DecidableEq, Repr

/-- `RegionCoordSetXtcs::region_coords_nested`: for each arq, for each of its
segments (enumerated within that arq), the row of windows of `times`
(enumerated), each cell tagged `((ix, it), RegionCoords)`. -/
def RegionCoordSetXtcs.region_coords_nested (c : RegionCoordSetXtcs) :
    List (List ((Nat × Nat) × RegionCoords)) :=
  c.arq_set.arqs.flatMap (fun arq =>
    arq.segments.enum.map (fun sp =>
      c.times.segments.enum.map (fun tp =>
        ((sp.1, tp.1), RegionCoords.mk sp.2 tp.2))))

/-- `RegionCoordSetXtcs::region_coords_flat`: the flattening of the nested
coordinate grid. -/
def RegionCoordSetXtcs.region_coords_flat (c : RegionCoordSetXtcs) :
    List ((Nat × Nat) × RegionCoords) :=
  c.region_coords_nested.flatten

/-- `RegionCoordSetXtcs::empty`. -/
def RegionCoordSetXtcs.empty : RegionCoordSetXtcs :=
  ⟨TelescopingTimes.empty, ArqBoundsSet.empty⟩

/-- The total number of spatial segments of the generating arq set (row count
of the grid). -/
def RegionCoordSetXtcs.rowCount (c : RegionCoordSetXtcs) : Nat :=
  (c.arq_set.arqs.map (fun a => a.segments.length)).sum

/-- `RegionSetXtcs<D>`: the generating coordinates plus the 2-D digest grid
(outer list: spatial segments, inner lists: time windows).  The `OnceCell`
coordinate cache is omitted (excluded from equality and the wire format). -/
structure RegionSetXtcs (D : Type) where
  coords : RegionCoordSetXtcs
  data : List (List D)
deriving DecidableEq, Repr

/-- The data-model invariant of `RegionSetXtcs`: the grid dimensions match the
coordinate generator (one row per spatial segment, one column per window). -/
def RegionSetXtcs.wf (s : RegionSetXtcs D) : Prop :=
  s.data.length = s.coords.rowCount ∧
    ∀ row ∈ s.data, row.length = s.coords.times.segments.length

/-- `collect::<Result<Vec<_>,_>>` on a list of fallible results: the values in
order, short-circuiting on the first error. -/
def collectExcept : List (Except E A) → Except E (List A)
  | [] => .ok []
  | x :: xs =>
      match x with
      | .error e => .error e
      | .ok d => (collectExcept xs).map (fun l => d :: l)

/-- `RegionSetXtcs::from_data`. -/
def RegionSetXtcs.from_data (coords : RegionCoordSetXtcs) (data : List (List D)) :
    RegionSetXtcs D :=
  ⟨coords, data⟩

/-- `RegionCoordSetXtcs::into_region_set`: map every coordinate through the
fallible digest function `f`, packing results into the grid shape,
short-circuiting on the first error. -/
def RegionCoordSetXtcs.into_region_set (c : RegionCoordSetXtcs)
    (f : (Nat × Nat) × RegionCoords → Except E D) :
    Except E (RegionSetXtcs D) :=
  (collectExcept (c.region_coords_nested.map
      (fun column => collectExcept (column.map f)))).map
    (fun data => RegionSetXtcs.from_data c data)

/-- `RegionSetXtcs::empty`. -/
def RegionSetXtcs.empty : RegionSetXtcs D :=
  ⟨RegionCoordSetXtcs.empty, []⟩

/-- `RegionSetXtcs::from_store`: one op-store aggregate query per cell; the
store is its query function `RegionCoords → D`. -/
def RegionSetXtcs.from_store (store : RegionCoords → D)
    (coords : RegionCoordSetXtcs) : RegionSetXtcs D :=
  ⟨coords, coords.region_coords_nested.map
      (fun column => column.map (fun p => store p.2))⟩

/-- `RegionSetXtcs::count`. -/
def RegionSetXtcs.count (s : RegionSetXtcs D) : Nat :=
  if s.data.isEmpty then 0 else s.data.length * (s.data.headD []).length

/-- `RegionSetXtcs::regions`: pair every generated coordinate with the grid
cell its tag points at.  The source indexes `data[ix][it]` directly (panicking
out of bounds); the embedding reads with a default, which agrees with the
source on every well-formed set. -/
def RegionSetXtcs.regions [Inhabited D] (s : RegionSetXtcs D) : List (Region D) :=
  s.coords.region_coords_flat.map
    (fun p => ⟨p.2, (s.data.getD p.1.1 []).getD p.1.2 default⟩)

/-- The per-row loop of `RegionSetXtcs::rectify`: the zipped rows of the two
grids, each pair reshaped by `TelescopingTimes::rectify`. -/
def rectifyPairs [Inhabited D] (comb : D → D → D) (x y : RegionSetXtcs D) :
    List (List D × List D) :=
  (x.data.zip y.data).map (fun p =>
    TelescopingTimes.rectify comb (x.coords.times, p.1) (y.coords.times, p.2))

/-- The `len` local of `RegionSetXtcs::rectify`: the length of the last
reshaped row (`0` when the loop body never ran). -/
def rectifyLen [Inhabited D] (comb : D → D → D) (x y : RegionSetXtcs D) : Nat :=
  match (rectifyPairs comb x y).getLast? with
  | none => 0
  | some q => q.1.length

/-- The success branch of `RegionSetXtcs::rectify`, after the canonicalizing
swap: rectify the zipped rows pairwise, remember the last row's resulting
length, and give both sides the second operand's times truncated to it.  Rows
beyond the zip (present only on ill-formed inputs) stay untouched, as with
`iter_mut().zip()` in the source. -/
def RegionSetXtcs.rectifyOk [Inhabited D] (comb : D → D → D)
    (x y : RegionSetXtcs D) : RegionSetXtcs D × RegionSetXtcs D :=
  (⟨⟨y.coords.times.limit (rectifyLen comb x y), x.coords.arq_set⟩,
      (rectifyPairs comb x y).map Prod.fst
        ++ x.data.drop (x.data.zip y.data).length⟩,
   ⟨⟨y.coords.times.limit (rectifyLen comb x y), y.coords.arq_set⟩,
      (rectifyPairs comb x y).map Prod.snd
        ++ y.data.drop (x.data.zip y.data).length⟩)

/-- `RegionSetXtcs::rectify`, with the two `&mut` operands made explicit
state: the returned pair is what the caller's two variables hold after the
call.  On the arq-set mismatch the error is returned before anything is
touched; otherwise the operands are swapped when the first one's times are
greater, then reshaped. -/
def RegionSetXtcs.rectifyState [Inhabited D] (comb : D → D → D)
    (a b : RegionSetXtcs D) :
    Option GossipError × RegionSetXtcs D × RegionSetXtcs D :=
  if a.coords.arq_set = b.coords.arq_set then
    if TelescopingTimes.ltB b.coords.times a.coords.times then
      let p := RegionSetXtcs.rectifyOk comb b a
      (none, p.1, p.2)
    else
      let p := RegionSetXtcs.rectifyOk comb a b
      (none, p.1, p.2)
  else (some GossipError.arqSetMismatchForDiff, a, b)

/-- `RegionSetXtcs::diff`: rectify, then keep, of each aligned pair of
regions, the first component whenever the digests disagree. -/
def RegionSetXtcs.diff [DecidableEq D] [Inhabited D] (comb : D → D → D)
    (a b : RegionSetXtcs D) : Except GossipError (List (Region D)) :=
  match RegionSetXtcs.rectifyState comb a b with
  | (some e, _, _) => .error e
  | (none, a', b') =>
      .ok ((a'.regions.zip b'.regions).filterMap
        (fun q => if q.1.data ≠ q.2.data then some q.1 else none))

deriving instance DecidableEq for Except

/-! ## Concrete inputs used by witnesses and counterexamples -/

/-- A one-segment arq (width one quantum at the origin). -/
def arq1 : ArqBounds := ⟨0, 0, 1⟩

/-- The arq collection holding just `arq1`. -/
def arqSet1 : ArqBoundsSet := ⟨[arq1]⟩

/-- A 1×1 region set whose single digest is 7, over the uncapped two-quantum
telescoping times. -/
def Aex : RegionSetXtcs Nat := ⟨⟨⟨2, none⟩, arqSet1⟩, [[7]]⟩

/-- A 1×1 region set whose single digest is 5, over the same times capped at
one window (so its times are strictly below `Aex`'s in the tiebreak order,
which makes `rectify Aex Bex` swap the operands). -/
def Bex : RegionSetXtcs Nat := ⟨⟨⟨2, some 1⟩, arqSet1⟩, [[5]]⟩

/-- An arq collection with two arqs of one segment each: the second arq's
segment is the grid's second spatial row. -/
def arqPair : ArqBoundsSet := ⟨[⟨0, 0, 1⟩, ⟨0, 5, 1⟩]⟩

/-- A coordinate generator over `arqPair` with a single time window. -/
def coords6 : RegionCoordSetXtcs := ⟨⟨1, none⟩, arqPair⟩

/-- An op store answering 10 over the first arq's segment and 20 over the
second arq's segment. -/
def store6 : RegionCoords → Nat := fun c => if c.space.offset = 0 then 10 else 20

/-! ## C5: grid shape -/

/-- Claim C5: `region_coords_nested()` yields exactly one row per spatial
segment — the total segment count summed across all arqs (each arq
contributing its `count`) — and every row has exactly one entry per window of
the `TelescopingTimes`. -/
theorem region_coords_nested_shape (c : RegionCoordSetXtcs) :
    c.region_coords_nested.length = (c.arq_set.arqs.map (fun a => a.count)).sum
    ∧ ∀ row ∈ c.region_coords_nested, row.length = c.times.segments.length := by
  constructor
  · unfold RegionCoordSetXtcs.region_coords_nested
    rw [List.flatMap_def, List.length_flatten, List.map_map]
    apply congrArg List.sum
    apply List.map_congr_left
    intro arq _
    simp [Function.comp, ArqBounds.segments]
  · intro row hrow
    simp only [RegionCoordSetXtcs.region_coords_nested, List.mem_flatMap,
      List.mem_map] at hrow
    obtain ⟨arq, -, sp, -, rfl⟩ := hrow
    simp

/-- Witness for C5 at the concrete two-arq generator. -/
theorem region_coords_nested_shape_witness :
    coords6.region_coords_nested.length
        = (coords6.arq_set.arqs.map (fun a => a.count)).sum
    ∧ ∀ row ∈ coords6.region_coords_nested,
        row.length = coords6.times.segments.length :=
  region_coords_nested_shape coords6

/-! ## C6: the flat index tags restart at every arq (code bug) -/

/-- Claim C6 exhibit: on a two-arq set the code tags both spatial segments
with spatial index 0 (`enumerate()` is applied per arq, not across arqs), so
the flat tags are not consecutive across all segments.  Consequently
`regions()` reads `data[0]` for both rows: the store's digest 20 for the
second arq's segment is built into the grid by `from_store` but never
surfaced, contradicting the documented pairing of tags with stored data. -/
theorem region_coords_flat_index_collision :
    coords6.region_coords_flat.map (fun p => p.1) = [(0, 0), (0, 0)]
    ∧ (RegionSetXtcs.from_store store6 coords6).data = [[10], [20]]
    ∧ (RegionSetXtcs.from_store store6 coords6).regions.map (fun r => r.data)
        = [10, 10] := by
  refine ⟨by decide, by decide, by decide⟩

/-! ## C9: empty values compose safely -/

/-- Claim C9: no operation raises an error on empty inputs —
`RegionSetXtcs::empty()` has `count() == 0`, and `diff` of two `empty()`
values succeeds with the empty list. -/
theorem empty_composes {D : Type} [DecidableEq D] [Inhabited D]
    (comb : D → D → D) :
    (RegionSetXtcs.empty (D := D)).count = 0
    ∧ RegionSetXtcs.diff comb RegionSetXtcs.empty RegionSetXtcs.empty
        = .ok [] := by
  exact ⟨rfl, rfl⟩

/-! ## C10: the fallible and infallible construction paths agree -/

/-- `collect` over a list of always-`ok` results is `ok` of the values. -/
theorem collectExcept_map_ok {E A B : Type} (g : B → A) (l : List B) :
    collectExcept (l.map (fun x => (Except.ok (g x) : Except E A)))
      = .ok (l.map g) := by
  induction l with
  | nil => rfl
  | cons x xs ih => simp [collectExcept, ih, Except.map]

/-- Claim C10: `from_store(store, coords)` equals
`coords.into_region_set` applied to the infallible per-cell store query —
same coordinates and the same grid, cell for cell. -/
theorem from_store_refines_into_region_set {D E : Type}
    (store : RegionCoords → D) (c : RegionCoordSetXtcs) :
    c.into_region_set (fun p => (Except.ok (store p.2) : Except E D))
      = .ok (RegionSetXtcs.from_store store c) := by
  have main : ∀ rows : List (List ((Nat × Nat) × RegionCoords)),
      collectExcept (rows.map (fun column =>
          collectExcept (column.map
            (fun p => (Except.ok (store p.2) : Except E D)))))
        = .ok (rows.map (fun column => column.map (fun p => store p.2))) := by
    intro rows
    induction rows with
    | nil => rfl
    | cons row rest ih =>
        simp only [List.map_cons, collectExcept, collectExcept_map_ok, ih,
          Except.map]
  unfold RegionCoordSetXtcs.into_region_set
  rw [main]
  rfl

/-! ## Lemmas about the rectification tiebreak order -/

/-- The tiebreak order is irreflexive. -/
theorem ltB_irrefl (x : TelescopingTimes) : TelescopingTimes.ltB x x = false := by
  obtain ⟨t, l⟩ := x
  cases l <;> simp [TelescopingTimes.ltB, optLtB]

/-- The tiebreak order is asymmetric. -/
theorem ltB_asymm {x y : TelescopingTimes}
    (h : TelescopingTimes.ltB x y = true) :
    TelescopingTimes.ltB y x = false := by
  obtain ⟨tx, lx⟩ := x
  obtain ⟨ty, ly⟩ := y
  cases lx <;> cases ly <;>
    simp_all [TelescopingTimes.ltB, optLtB] <;> omega

/-- Two instances neither of which is below the other are equal. -/
theorem ltB_conn {x y : TelescopingTimes}
    (h1 : TelescopingTimes.ltB x y = false)
    (h2 : TelescopingTimes.ltB y x = false) : x = y := by
  obtain ⟨tx, lx⟩ := x
  obtain ⟨ty, ly⟩ := y
  cases lx <;> cases ly <;>
    simp_all [TelescopingTimes.ltB, optLtB] <;> omega

/-! ## Lemmas about the row reshaping -/

/-- The two rows returned by `TelescopingTimes::rectify` have equal length. -/
theorem tt_rectify_length {D : Type} [Inhabited D] (comb : D → D → D)
    (a b : TelescopingTimes × List D) :
    (TelescopingTimes.rectify comb a b).1.length
      = (TelescopingTimes.rectify comb a b).2.length := by
  simp only [TelescopingTimes.rectify, List.length_take]
  omega

/-- Reshaping a pair with identical schema and identical rows returns two
identical rows. -/
theorem tt_rectify_self {D : Type} [Inhabited D] (comb : D → D → D)
    (t : TelescopingTimes) (d : List D) :
    (TelescopingTimes.rectify comb (t, d) (t, d)).1
      = (TelescopingTimes.rectify comb (t, d) (t, d)).2 := rfl

/-- Reshaping with the two sides exchanged (same schema) exchanges the two
returned rows. -/
theorem tt_rectify_swap {D : Type} [Inhabited D] (comb : D → D → D)
    (t : TelescopingTimes) (u v : List D) :
    TelescopingTimes.rectify comb (t, v) (t, u)
      = ((TelescopingTimes.rectify comb (t, u) (t, v)).2,
         (TelescopingTimes.rectify comb (t, u) (t, v)).1) := by
  simp only [TelescopingTimes.rectify]
  rw [Nat.min_comm]

/-- Zipping a list with itself pairs every element with itself. -/
theorem zip_self_map {α : Type} (l : List α) :
    l.zip l = l.map (fun x => (x, x)) := by
  induction l with
  | nil => rfl
  | cons x xs ih => simp [ih]

/-! ## C2: the mismatch error, and only it -/

/-- On mismatching arq sets, `rectify` returns the error before touching
either operand. -/
theorem rectifyState_of_arq_ne {D : Type} [Inhabited D] (comb : D → D → D)
    (a b : RegionSetXtcs D) (hne : a.coords.arq_set ≠ b.coords.arq_set) :
    RegionSetXtcs.rectifyState comb a b
      = (some GossipError.arqSetMismatchForDiff, a, b) := by
  unfold RegionSetXtcs.rectifyState
  rw [if_neg hne]

/-- On mismatching arq sets, `diff` propagates the mismatch error. -/
theorem diff_error_of_arq_ne {D : Type} [Inhabited D] [DecidableEq D]
    (comb : D → D → D) (a b : RegionSetXtcs D)
    (hne : a.coords.arq_set ≠ b.coords.arq_set) :
    RegionSetXtcs.diff comb a b
      = .error GossipError.arqSetMismatchForDiff := by
  unfold RegionSetXtcs.diff
  rw [rectifyState_of_arq_ne comb a b hne]

/-- Claim C2: `rectify` (hence `diff`) fails with `ArqSetMismatchForDiff`
exactly when the two `ArqBoundsSet`s are not structurally equal; on that error
the returned state is the untouched pair of inputs (no swap, no truncation),
and a `diff` whose rectification succeeds never fails. -/
theorem rectify_mismatch_iff {D : Type} [Inhabited D] [DecidableEq D]
    (comb : D → D → D) (a b : RegionSetXtcs D) :
    (a.coords.arq_set ≠ b.coords.arq_set →
        RegionSetXtcs.rectifyState comb a b
            = (some GossipError.arqSetMismatchForDiff, a, b)
        ∧ RegionSetXtcs.diff comb a b
            = .error GossipError.arqSetMismatchForDiff)
    ∧ (a.coords.arq_set = b.coords.arq_set →
        (RegionSetXtcs.rectifyState comb a b).1 = none
        ∧ ∃ l, RegionSetXtcs.diff comb a b = .ok l) := by
  constructor
  · intro hne
    exact ⟨rectifyState_of_arq_ne comb a b hne,
      diff_error_of_arq_ne comb a b hne⟩
  · intro heq
    have h1 : RegionSetXtcs.rectifyState comb a b
        = (none, (RegionSetXtcs.rectifyState comb a b).2.1,
            (RegionSetXtcs.rectifyState comb a b).2.2) := by
      unfold RegionSetXtcs.rectifyState
      rw [if_pos heq]
      split <;> rfl
    refine ⟨by rw [h1], ?_⟩
    refine ⟨((RegionSetXtcs.rectifyState comb a b).2.1.regions.zip
        (RegionSetXtcs.rectifyState comb a b).2.2.regions).filterMap
        (fun q => if q.1.data ≠ q.2.data then some q.1 else none), ?_⟩
    unfold RegionSetXtcs.diff
    rw [h1]

/-- Witness for C2: a concrete mismatching pair is rejected untouched, and a
concrete matching pair rectifies with no error. -/
theorem rectify_mismatch_iff_witness :
    (RegionSetXtcs.rectifyState Nat.add Aex
          ⟨⟨⟨2, some 1⟩, arqPair⟩, [[5]]⟩
        = (some GossipError.arqSetMismatchForDiff, Aex,
            ⟨⟨⟨2, some 1⟩, arqPair⟩, [[5]]⟩))
    ∧ (RegionSetXtcs.rectifyState Nat.add Aex Bex).1 = none :=
  ⟨((rectify_mismatch_iff Nat.add Aex ⟨⟨⟨2, some 1⟩, arqPair⟩, [[5]]⟩).1
      (by decide)).1,
   ((rectify_mismatch_iff Nat.add Aex Bex).2 (by decide)).1⟩

/-! ## C4: diff is reflexively empty -/

/-- The emitted-region filter of `diff` keeps nothing when each region is
paired with itself. -/
theorem diff_list_self {D : Type} [DecidableEq D] (l : List (Region D)) :
    (l.zip l).filterMap
        (fun q => if q.1.data ≠ q.2.data then some q.1 else none) = [] := by
  rw [zip_self_map, List.filterMap_map]
  simp

/-- Rectifying a set against an identical copy returns two identical sets. -/
theorem rectifyOk_self {D : Type} [Inhabited D] (comb : D → D → D)
    (a : RegionSetXtcs D) :
    (RegionSetXtcs.rectifyOk comb a a).1
      = (RegionSetXtcs.rectifyOk comb a a).2 := by
  unfold RegionSetXtcs.rectifyOk
  have hp : (rectifyPairs comb a a).map Prod.fst
      = (rectifyPairs comb a a).map Prod.snd := by
    unfold rectifyPairs
    simp only [zip_self_map, List.map_map]
    exact List.map_congr_left (fun r _ => rfl)
  rw [hp]

/-- Claim C4: for every (well-formed) `RegionSetXtcs` `A`,
`diff(A, clone of A)` succeeds and returns the empty list. -/
theorem diff_self_empty {D : Type} [Inhabited D] [DecidableEq D]
    (comb : D → D → D) (a : RegionSetXtcs D) (_ha : a.wf) :
    RegionSetXtcs.diff comb a a = .ok [] := by
  have hstate : RegionSetXtcs.rectifyState comb a a
      = (none, (RegionSetXtcs.rectifyOk comb a a).1,
          (RegionSetXtcs.rectifyOk comb a a).2) := by
    unfold RegionSetXtcs.rectifyState
    rw [if_pos rfl, if_neg (by simp [ltB_irrefl])]
  unfold RegionSetXtcs.diff
  rw [hstate, ← rectifyOk_self comb a]
  show Except.ok (((RegionSetXtcs.rectifyOk comb a a).1.regions.zip
      (RegionSetXtcs.rectifyOk comb a a).1.regions).filterMap
      (fun q => if q.1.data ≠ q.2.data then some q.1 else none)) = Except.ok []
  rw [diff_list_self]

/-- Witness for C4 at a concrete well-formed set. -/
theorem diff_self_empty_witness :
    Aex.wf ∧ RegionSetXtcs.diff Nat.add Aex Aex = .ok [] :=
  ⟨by constructor <;> decide,
   diff_self_empty Nat.add Aex (by constructor <;> decide)⟩

/-! ## C1: rectify aligns coordinates and grid dimensions -/

/-- After the success branch of `rectify`, the two grids have equal row count
and pairwise equal row lengths. -/
theorem rectifyOk_shape {D : Type} [Inhabited D] (comb : D → D → D)
    (x y : RegionSetXtcs D) (hlen : x.data.length = y.data.length) :
    (RegionSetXtcs.rectifyOk comb x y).1.data.length
        = (RegionSetXtcs.rectifyOk comb x y).2.data.length
    ∧ (RegionSetXtcs.rectifyOk comb x y).1.data.map List.length
        = (RegionSetXtcs.rectifyOk comb x y).2.data.map List.length := by
  have hdx : x.data.drop (x.data.zip y.data).length = [] := by
    rw [List.length_zip, hlen, Nat.min_self, ← hlen]
    exact List.drop_length x.data
  have hdy : y.data.drop (x.data.zip y.data).length = [] := by
    rw [List.length_zip, hlen, Nat.min_self]
    exact List.drop_length y.data
  unfold RegionSetXtcs.rectifyOk
  simp only [hdx, hdy, List.append_nil]
  constructor
  · simp
  · unfold rectifyPairs
    simp only [List.map_map]
    apply List.map_congr_left
    intro p hp
    simp only [Function.comp_apply]
    exact tt_rectify_length comb _ _

/-- Claim C1: for two well-formed `RegionSetXtcs` with structurally equal
`ArqBoundsSet`s, `rectify` succeeds, after which both operands have equal
`coords` (the same arq set and the same truncated `TelescopingTimes`, so cell
`[i][j]` of each denotes the same spacetime rectangle) and their grids have
equal dimensions (equal row count, pairwise equal row lengths). -/
theorem rectify_aligns {D : Type} [Inhabited D] (comb : D → D → D)
    (a b : RegionSetXtcs D) (ha : a.wf) (hb : b.wf)
    (h : a.coords.arq_set = b.coords.arq_set) :
    ∃ a' b', RegionSetXtcs.rectifyState comb a b = (none, a', b')
      ∧ a'.coords = b'.coords
      ∧ a'.data.length = b'.data.length
      ∧ a'.data.map List.length = b'.data.map List.length
      ∧ (∃ n, a'.coords.times = a.coords.times.limit n
            ∨ a'.coords.times = b.coords.times.limit n) := by
  have hrow : a.coords.rowCount = b.coords.rowCount := by
    unfold RegionCoordSetXtcs.rowCount
    rw [h]
  have hlen : a.data.length = b.data.length := by
    rw [ha.1, hb.1, hrow]
  cases hsw : TelescopingTimes.ltB b.coords.times a.coords.times
  case true =>
    refine ⟨(RegionSetXtcs.rectifyOk comb b a).1,
        (RegionSetXtcs.rectifyOk comb b a).2, ?_, ?_, ?_, ?_, ?_⟩
    · unfold RegionSetXtcs.rectifyState
      rw [if_pos h, if_pos hsw]
    · show RegionCoordSetXtcs.mk
          (a.coords.times.limit (rectifyLen comb b a)) b.coords.arq_set
        = RegionCoordSetXtcs.mk
          (a.coords.times.limit (rectifyLen comb b a)) a.coords.arq_set
      rw [h]
    · exact (rectifyOk_shape comb b a hlen.symm).1
    · exact (rectifyOk_shape comb b a hlen.symm).2
    · exact ⟨rectifyLen comb b a, Or.inl rfl⟩
  case false =>
    refine ⟨(RegionSetXtcs.rectifyOk comb a b).1,
        (RegionSetXtcs.rectifyOk comb a b).2, ?_, ?_, ?_, ?_, ?_⟩
    · unfold RegionSetXtcs.rectifyState
      rw [if_pos h, if_neg (by simp [hsw])]
    · show RegionCoordSetXtcs.mk
          (b.coords.times.limit (rectifyLen comb a b)) a.coords.arq_set
        = RegionCoordSetXtcs.mk
          (b.coords.times.limit (rectifyLen comb a b)) b.coords.arq_set
      rw [h]
    · exact (rectifyOk_shape comb a b hlen).1
    · exact (rectifyOk_shape comb a b hlen).2
    · exact ⟨rectifyLen comb a b, Or.inr rfl⟩

/-- Witness for C1 at a concrete well-formed pair with equal arq sets. -/
theorem rectify_aligns_witness :
    ∃ a' b', RegionSetXtcs.rectifyState Nat.add Aex Bex = (none, a', b')
      ∧ a'.coords = b'.coords
      ∧ a'.data.length = b'.data.length
      ∧ a'.data.map List.length = b'.data.map List.length
      ∧ (∃ n, a'.coords.times = Aex.coords.times.limit n
            ∨ a'.coords.times = Bex.coords.times.limit n) :=
  rectify_aligns Nat.add Aex Bex ⟨by decide, by decide⟩
    ⟨by decide, by decide⟩ (by decide)

/-! ## C3: the emitted digest is the post-swap first slot's, not always A's -/

/-- Claim C3 counterexample: `Bex.coords.times` is strictly below
`Aex.coords.times` in the tiebreak order, so `rectify` swaps the operands
before comparing.  `diff Aex Bex` then emits digest 5 — `Bex`'s value — while
the first operand `Aex`'s post-rectify grid (left in the second slot by the
swap) holds 7 for the very same rectangle: not every emitted region carries
the first operand's digest. -/
theorem diff_digest_counterexample :
    RegionSetXtcs.diff Nat.add Aex Bex
        = .ok [⟨⟨⟨0, 0⟩, ⟨1, 0⟩⟩, 5⟩]
    ∧ (RegionSetXtcs.rectifyState Nat.add Aex Bex).2.2
        = ⟨⟨⟨2, some 1⟩, arqSet1⟩, [[7]]⟩
    ∧ ¬ ∀ r ∈ [(⟨⟨⟨0, 0⟩, ⟨1, 0⟩⟩, 5⟩ : Region Nat)], r.data = 7 :=
  ⟨by decide, by decide, by decide⟩

/-- Claim C3 as amended: every region returned by `diff(A, B)` carries the
post-rectify digest of the operand left in the first slot by `rectify`'s
canonicalizing swap — `A`'s when `A`'s times are not greater than `B`'s,
otherwise `B`'s. -/
theorem diff_emits_first_slot {D : Type} [Inhabited D] [DecidableEq D]
    (comb : D → D → D) (a b : RegionSetXtcs D) (l : List (Region D))
    (h : RegionSetXtcs.diff comb a b = .ok l) :
    ∀ r ∈ l, r ∈ (RegionSetXtcs.rectifyState comb a b).2.1.regions := by
  intro r hr
  unfold RegionSetXtcs.diff at h
  rcases hrs : RegionSetXtcs.rectifyState comb a b with ⟨o, a', b'⟩
  rw [hrs] at h
  cases o with
  | some e => simp at h
  | none =>
      simp only [Except.ok.injEq] at h
      rw [← h] at hr
      obtain ⟨⟨ra, rb⟩, hmem, hq⟩ := List.mem_filterMap.mp hr
      by_cases hd : ra.data = rb.data
      · rw [if_neg (by simp [hd])] at hq
        cases hq
      · rw [if_pos (by simp [hd])] at hq
        obtain rfl : ra = r := by injection hq
        exact (List.of_mem_zip hmem).1

/-- Witness for the amended C3 at the concrete swapped pair: the single
emitted region is one of the post-swap first slot's regions. -/
theorem diff_emits_first_slot_witness :
    (⟨⟨⟨0, 0⟩, ⟨1, 0⟩⟩, 5⟩ : Region Nat)
      ∈ (RegionSetXtcs.rectifyState Nat.add Aex Bex).2.1.regions :=
  diff_emits_first_slot Nat.add Aex Bex
    [⟨⟨⟨0, 0⟩, ⟨1, 0⟩⟩, 5⟩] (by decide)
    ⟨⟨⟨0, 0⟩, ⟨1, 0⟩⟩, 5⟩ (List.mem_cons_self _ _)

/-! ## C8: the mismatching coordinate set is symmetric -/

/-- Exchanging the operands of the per-row loop (equal times) swaps each
reshaped pair. -/
theorem rectifyPairs_swap {D : Type} [Inhabited D] (comb : D → D → D)
    (x y : RegionSetXtcs D) (ht : x.coords.times = y.coords.times) :
    rectifyPairs comb y x = (rectifyPairs comb x y).map Prod.swap := by
  unfold rectifyPairs
  rw [← List.zip_swap, List.map_map, List.map_map]
  apply List.map_congr_left
  intro p hp
  simp only [Function.comp_apply, Prod.swap]
  rw [ht]
  exact tt_rectify_swap comb y.coords.times p.1 p.2

/-- Exchanging the operands (equal times) leaves the tracked common length
unchanged. -/
theorem rectifyLen_swap {D : Type} [Inhabited D] (comb : D → D → D)
    (x y : RegionSetXtcs D) (ht : x.coords.times = y.coords.times) :
    rectifyLen comb y x = rectifyLen comb x y := by
  unfold rectifyLen
  rw [rectifyPairs_swap comb x y ht, List.getLast?_map]
  cases hq : (rectifyPairs comb x y).getLast? with
  | none => rfl
  | some q =>
      have hmem : q ∈ rectifyPairs comb x y :=
        List.mem_of_mem_getLast? (Option.mem_def.mpr hq)
      unfold rectifyPairs at hmem
      obtain ⟨p, -, rfl⟩ := List.mem_map.mp hmem
      simp only [Option.map_some]
      exact (tt_rectify_length comb _ _).symm

/-- Exchanging the operands (equal times) swaps the two rectified slots. -/
theorem rectifyOk_swap {D : Type} [Inhabited D] (comb : D → D → D)
    (x y : RegionSetXtcs D) (ht : x.coords.times = y.coords.times) :
    RegionSetXtcs.rectifyOk comb y x
      = ((RegionSetXtcs.rectifyOk comb x y).2,
         (RegionSetXtcs.rectifyOk comb x y).1) := by
  have hzl : (y.data.zip x.data).length = (x.data.zip y.data).length := by
    simp [Nat.min_comm]
  have hmapfst : (rectifyPairs comb y x).map Prod.fst
      = (rectifyPairs comb x y).map Prod.snd := by
    rw [rectifyPairs_swap comb x y ht, List.map_map]
    exact List.map_congr_left (fun p _ => rfl)
  have hmapsnd : (rectifyPairs comb y x).map Prod.snd
      = (rectifyPairs comb x y).map Prod.fst := by
    rw [rectifyPairs_swap comb x y ht, List.map_map]
    exact List.map_congr_left (fun p _ => rfl)
  unfold RegionSetXtcs.rectifyOk
  rw [hmapfst, hmapsnd, hzl, rectifyLen_swap comb x y ht, ht]

/-- Two sets with equal coordinate generators list the same region
coordinates in the same order. -/
theorem regions_coords_map {D : Type} [Inhabited D] (r1 r2 : RegionSetXtcs D)
    (h : r1.coords = r2.coords) :
    r1.regions.map (fun r => r.coords)
      = r2.regions.map (fun r => r.coords) := by
  unfold RegionSetXtcs.regions
  rw [List.map_map, List.map_map, h]
  exact List.map_congr_left (fun p _ => rfl)

/-- Exchanging the two aligned region lists preserves the coordinates of the
mismatching cells (the digest inequality test is symmetric). -/
theorem diff_list_coords_symm {D : Type} [DecidableEq D] :
    ∀ (l1 l2 : List (Region D)),
      l1.map (fun r => r.coords) = l2.map (fun r => r.coords) →
      ((l1.zip l2).filterMap
          (fun q => if q.1.data ≠ q.2.data then some q.1 else none)).map
          (fun r => r.coords)
      = ((l2.zip l1).filterMap
          (fun q => if q.1.data ≠ q.2.data then some q.1 else none)).map
          (fun r => r.coords) := by
  intro l1
  induction l1 with
  | nil => intro l2 h; cases l2 <;> simp
  | cons a t ih =>
      intro l2 h
      cases l2 with
      | nil => simp
      | cons b t2 =>
          simp only [List.map_cons, List.cons.injEq] at h
          obtain ⟨hc, ht⟩ := h
          by_cases hd : a.data = b.data
          · have g1 : (fun (q : Region D × Region D) =>
                if q.1.data ≠ q.2.data then some q.1 else none) (a, b)
                  = none := by simp [hd]
            have g2 : (fun (q : Region D × Region D) =>
                if q.1.data ≠ q.2.data then some q.1 else none) (b, a)
                  = none := by simp [hd]
            rw [List.zip_cons_cons, List.zip_cons_cons,
              @List.filterMap_cons_none _ _
                (fun q => if q.1.data ≠ q.2.data then some q.1 else none)
                (a, b) (t.zip t2) g1,
              @List.filterMap_cons_none _ _
                (fun q => if q.1.data ≠ q.2.data then some q.1 else none)
                (b, a) (t2.zip t) g2]
            exact ih t2 ht
          · have g1 : (fun (q : Region D × Region D) =>
                if q.1.data ≠ q.2.data then some q.1 else none) (a, b)
                  = some a := by simp [hd]
            have g2 : (fun (q : Region D × Region D) =>
                if q.1.data ≠ q.2.data then some q.1 else none) (b, a)
                  = some b := by simp [Ne.symm hd]
            rw [List.zip_cons_cons, List.zip_cons_cons,
              @List.filterMap_cons_some _ _
                (fun q => if q.1.data ≠ q.2.data then some q.1 else none)
                (a, b) (t.zip t2) a g1,
              @List.filterMap_cons_some _ _
                (fun q => if q.1.data ≠ q.2.data then some q.1 else none)
                (b, a) (t2.zip t) b g2,
              List.map_cons, List.map_cons, hc]
            exact congrArg (List.cons b.coords) (ih t2 ht)

/-- Claim C8: whenever both `diff(A, B)` and `diff(B, A)` succeed, the two
calls return the same region coordinates (here, even the same coordinate
list); only the attached digest values may differ. -/
theorem diff_coords_symmetric {D : Type} [Inhabited D] [DecidableEq D]
    (comb : D → D → D) (a b : RegionSetXtcs D) (l l' : List (Region D))
    (h1 : RegionSetXtcs.diff comb a b = .ok l)
    (h2 : RegionSetXtcs.diff comb b a = .ok l') :
    l.map (fun r => r.coords) = l'.map (fun r => r.coords) := by
  have harq : a.coords.arq_set = b.coords.arq_set := by
    by_cases hne : a.coords.arq_set = b.coords.arq_set
    · exact hne
    · rw [diff_error_of_arq_ne comb a b hne] at h1
      cases h1
  unfold RegionSetXtcs.diff at h1 h2
  cases hsw1 : TelescopingTimes.ltB b.coords.times a.coords.times
  case true =>
    have hsw2 := ltB_asymm hsw1
    have hs1 : RegionSetXtcs.rectifyState comb a b
        = (none, (RegionSetXtcs.rectifyOk comb b a).1,
            (RegionSetXtcs.rectifyOk comb b a).2) := by
      unfold RegionSetXtcs.rectifyState
      rw [if_pos harq, if_pos hsw1]
    have hs2 : RegionSetXtcs.rectifyState comb b a
        = (none, (RegionSetXtcs.rectifyOk comb b a).1,
            (RegionSetXtcs.rectifyOk comb b a).2) := by
      unfold RegionSetXtcs.rectifyState
      rw [if_pos harq.symm, if_neg (by simp [hsw2])]
    rw [hs1] at h1
    rw [hs2] at h2
    simp only [Except.ok.injEq] at h1 h2
    rw [← h1, ← h2]
  case false =>
    cases hsw2 : TelescopingTimes.ltB a.coords.times b.coords.times
    case true =>
      have hs1 : RegionSetXtcs.rectifyState comb a b
          = (none, (RegionSetXtcs.rectifyOk comb a b).1,
              (RegionSetXtcs.rectifyOk comb a b).2) := by
        unfold RegionSetXtcs.rectifyState
        rw [if_pos harq, if_neg (by simp [hsw1])]
      have hs2 : RegionSetXtcs.rectifyState comb b a
          = (none, (RegionSetXtcs.rectifyOk comb a b).1,
              (RegionSetXtcs.rectifyOk comb a b).2) := by
        unfold RegionSetXtcs.rectifyState
        rw [if_pos harq.symm, if_pos hsw2]
      rw [hs1] at h1
      rw [hs2] at h2
      simp only [Except.ok.injEq] at h1 h2
      rw [← h1, ← h2]
    case false =>
      have ht : a.coords.times = b.coords.times := ltB_conn hsw2 hsw1
      have hs1 : RegionSetXtcs.rectifyState comb a b
          = (none, (RegionSetXtcs.rectifyOk comb a b).1,
              (RegionSetXtcs.rectifyOk comb a b).2) := by
        unfold RegionSetXtcs.rectifyState
        rw [if_pos harq, if_neg (by simp [hsw1])]
      have hs2 : RegionSetXtcs.rectifyState comb b a
          = (none, (RegionSetXtcs.rectifyOk comb b a).1,
              (RegionSetXtcs.rectifyOk comb b a).2) := by
        unfold RegionSetXtcs.rectifyState
        rw [if_pos harq.symm, if_neg (by simp [hsw2])]
      rw [hs1] at h1
      rw [hs2] at h2
      simp only [Except.ok.injEq] at h1 h2
      have hco : (RegionSetXtcs.rectifyOk comb a b).1.coords
          = (RegionSetXtcs.rectifyOk comb a b).2.coords := by
        show RegionCoordSetXtcs.mk
            (b.coords.times.limit (rectifyLen comb a b)) a.coords.arq_set
          = RegionCoordSetXtcs.mk
            (b.coords.times.limit (rectifyLen comb a b)) b.coords.arq_set
        rw [harq]
      rw [← h1, ← h2, rectifyOk_swap comb a b ht]
      exact diff_list_coords_symm _ _ (regions_coords_map _ _ hco)

/-- Witness for C8 at the concrete swapped pair (both diff orders return the
same single region). -/
theorem diff_coords_symmetric_witness :
    ([(⟨⟨⟨0, 0⟩, ⟨1, 0⟩⟩, 5⟩ : Region Nat)].map (fun r => r.coords))
      = ([(⟨⟨⟨0, 0⟩, ⟨1, 0⟩⟩, 5⟩ : Region Nat)].map (fun r => r.coords)) :=
  diff_coords_symmetric Nat.add Aex Bex
    [⟨⟨⟨0, 0⟩, ⟨1, 0⟩⟩, 5⟩] [⟨⟨⟨0, 0⟩, ⟨1, 0⟩⟩, 5⟩]
    (by decide) (by decide)

/-! ## C7: into_region_set is total on success and fail-fast on error -/

/-- Whether a fallible result is a success. -/
def isOkB : Except E A → Bool
  | .ok _ => true
  | .error _ => false

/-- The value under a successful result (`default` on errors; only ever used
under an all-successes hypothesis). -/
def exVal [Inhabited A] : Except E A → A
  | .ok d => d
  | .error _ => default

/-- `collect` over all-successful results returns all the values. -/
theorem collectExcept_all_ok {E A : Type} [Inhabited A]
    (l : List (Except E A)) (h : ∀ x ∈ l, isOkB x = true) :
    collectExcept l = .ok (l.map exVal) := by
  induction l with
  | nil => rfl
  | cons x xs ih =>
      cases x with
      | error e =>
          exact absurd (h _ (List.mem_cons_self _ _)) (by simp [isOkB])
      | ok d =>
          simp only [collectExcept, List.map_cons,
            ih (fun y hy => h y (List.mem_cons_of_mem _ hy)), Except.map, exVal]

/-- `collect` returns the error of the first unsuccessful result. -/
theorem collectExcept_first_error {E A : Type}
    (l : List (Except E A)) (x : Except E A) (e : E)
    (hf : l.find? (fun y => !isOkB y) = some x) (hx : x = .error e) :
    collectExcept l = .error e := by
  induction l with
  | nil => cases hf
  | cons z zs ih =>
      by_cases hz : (!isOkB z) = true
      · rw [List.find?_cons_of_pos zs hz] at hf
        obtain rfl : z = x := by injection hf
        cases z with
        | error e' =>
            obtain rfl : e' = e := by injection hx
            rfl
        | ok d => simp [isOkB] at hz
      · rw [List.find?_cons_of_neg zs hz] at hf
        cases z with
        | error e' => simp [isOkB] at hz
        | ok d => simp only [collectExcept, ih hf, Except.map]

/-- Claim C7: `into_region_set(f)` applies `f` to every coordinate in
row-major order; when every application succeeds it returns the complete 2-D
grid of the produced digests, and otherwise it returns the error of the first
failing coordinate in traversal order — no partial grid is produced. -/
theorem into_region_set_spec {D E : Type} [Inhabited D]
    (c : RegionCoordSetXtcs) (f : (Nat × Nat) × RegionCoords → Except E D) :
    ((∀ p ∈ c.region_coords_flat, isOkB (f p) = true) →
        c.into_region_set f
          = .ok (RegionSetXtcs.from_data c
              (c.region_coords_nested.map (fun column =>
                column.map (fun p => exVal (f p))))))
    ∧ (∀ p e, c.region_coords_flat.find? (fun q => !isOkB (f q)) = some p →
        f p = .error e → c.into_region_set f = .error e) := by
  have main1 : ∀ rows : List (List ((Nat × Nat) × RegionCoords)),
      (∀ p ∈ rows.flatten, isOkB (f p) = true) →
      collectExcept (rows.map (fun column => collectExcept (column.map f)))
        = .ok (rows.map (fun column =>
            column.map (fun p => exVal (f p)))) := by
    intro rows
    induction rows with
    | nil => exact fun _ => rfl
    | cons row rest ih =>
        intro h
        have hrow : ∀ x ∈ row.map f, isOkB x = true := by
          intro x hx
          obtain ⟨p, hp, rfl⟩ := List.mem_map.mp hx
          exact h p (List.mem_flatten_of_mem (List.mem_cons_self _ _) hp)
        have hrest : ∀ p ∈ rest.flatten, isOkB (f p) = true := by
          intro p hp
          obtain ⟨ll, hll, hpl⟩ := List.mem_flatten.mp hp
          exact h p
            (List.mem_flatten_of_mem (List.mem_cons_of_mem _ hll) hpl)
        simp only [List.map_cons, collectExcept_all_ok (row.map f) hrow,
          collectExcept, ih hrest, Except.map, List.map_map]
        rfl
  have main2 : ∀ rows : List (List ((Nat × Nat) × RegionCoords)),
      ∀ p e, rows.flatten.find? (fun q => !isOkB (f q)) = some p →
      f p = .error e →
      collectExcept (rows.map (fun column => collectExcept (column.map f)))
        = .error e := by
    intro rows
    induction rows with
    | nil =>
        intro p e hf _
        cases hf
    | cons row rest ih =>
        intro p e hf hx
        rw [List.flatten_cons, List.find?_append] at hf
        cases hrow : row.find? (fun q => !isOkB (f q)) with
        | some y =>
            rw [hrow, Option.or_some] at hf
            have hyp : y = p := by injection hf
            subst hyp
            have hfind : (row.map f).find? (fun z => !isOkB z)
                = some (f y) := by
              have hmf : ((row.find? (fun q => !isOkB (f q))).map f)
                  = some (f y) := by rw [hrow]; rfl
              rw [List.find?_map]
              exact hmf
            have hinner : collectExcept (row.map f) = .error e :=
              collectExcept_first_error (row.map f) (f y) e hfind hx
            simp only [List.map_cons, hinner, collectExcept]
        | none =>
            rw [hrow, Option.none_or] at hf
            have hrowok : ∀ x ∈ row.map f, isOkB x = true := by
              intro x hxm
              obtain ⟨q, hq, rfl⟩ := List.mem_map.mp hxm
              have := List.find?_eq_none.mp hrow q hq
              simpa using this
            simp only [List.map_cons, collectExcept_all_ok (row.map f) hrowok,
              collectExcept, ih p e hf hx, Except.map]
  constructor
  · intro h
    unfold RegionCoordSetXtcs.into_region_set
    rw [main1 c.region_coords_nested h]
    rfl
  · intro p e hf hx
    unfold RegionCoordSetXtcs.into_region_set
    rw [main2 c.region_coords_nested p e hf hx]
    rfl

/-- Witness for C7: a digest function failing at the second flat coordinate of
`coords6` makes `into_region_set` return that error, and the all-successes
instantiation returns the full grid. -/
theorem into_region_set_spec_witness :
    (coords6.into_region_set
        (fun p => (Except.ok (store6 p.2) : Except Nat Nat))
      = .ok (RegionSetXtcs.from_data coords6
          (coords6.region_coords_nested.map (fun column =>
            column.map (fun p =>
              exVal ((fun p => (Except.ok (store6 p.2) : Except Nat Nat))
                p))))))
    ∧ (coords6.into_region_set
        (fun p => if p.2.space.offset = 0 then (Except.ok 1 : Except Nat Nat)
            else .error 9)
      = .error 9) :=
  ⟨(into_region_set_spec coords6
      (fun p => (Except.ok (store6 p.2) : Except Nat Nat))).1 (by decide),
   (into_region_set_spec coords6
      (fun p => if p.2.space.offset = 0 then (Except.ok 1 : Except Nat Nat)
          else .error 9)).2
     ⟨(0, 0), ⟨⟨0, 5⟩, ⟨0, 0⟩⟩⟩ 9 (by decide) (by decide)⟩

/-- Witness for C9 at the digest type of the other examples. -/
theorem empty_composes_witness :
    (RegionSetXtcs.empty (D := Nat)).count = 0
    ∧ RegionSetXtcs.diff Nat.add RegionSetXtcs.empty RegionSetXtcs.empty
        = .ok [] :=
  empty_composes Nat.add

/-- Witness for C10 at the concrete two-arq store. -/
theorem from_store_refines_witness :
    coords6.into_region_set
        (fun p => (Except.ok (store6 p.2) : Except Unit Nat))
      = .ok (RegionSetXtcs.from_store store6 coords6) :=
  from_store_refines_into_region_set store6 coords6
